import Mathlib

/-!
Verification of the style-composition core of the `termimad` repository
(files `src/compound_style.rs` and `src/styled_char.rs`), together with
the scrollable-view contract used by `examples/colored-template-scroll`.

The repository builds on crossterm 0.14's styling types (`Color`,
`Attribute`, `ContentStyle`, `StyledContent`), so those are embedded
here first, exactly as that crate defines them:
  * `ContentStyle` is an optional foreground color, an optional
    background color and a `Vec<Attribute>` (a Lean `List`);
  * `ContentStyle::apply(val)` builds a `StyledContent` pairing the
    value with a clone of the style;
  * the `Display` impl of `StyledContent` writes, in order: a
    `SetForegroundColor` escape when the foreground is set, a
    `SetBackgroundColor` escape when the background is set, one
    `SetAttribute` escape per stored attribute, the content itself,
    and finally a `ResetColor` escape iff any escape was written.
Queued writes are modelled as lists of output tokens (`Out`); each
escape token stands for the (non-empty) ANSI escape string crossterm
writes for it, and `Out.text s` stands for the bytes of `s`, so a byte
stream is empty exactly when its token list is empty, and equal token
lists mean byte-identical streams.

On top of the token stream, a small terminal interpretation
(`TermState`, `visualChars`) recovers the *visual* output: the sequence
of printed characters, each tagged with the fg/bg/attribute state in
force when it is printed.  This is used for the claims stated in terms
of visual effect rather than raw bytes.
-/

namespace Termimad

/-- Color palette of crossterm 0.14 (`crossterm::style::Color`).  The
`u8` components are modelled as `Nat`; no claim depends on overflow. -/
inductive Color
  | reset
  | black
  | darkGrey
  | red
  | darkRed
  | green
  | darkGreen
  | yellow
  | darkYellow
  | blue
  | darkBlue
  | magenta
  | darkMagenta
  | cyan
  | darkCyan
  | white
  | grey
  | rgb (r g b : Nat)
  | ansiValue (n : Nat)
deriving DecidableEq

/-- Text attributes of crossterm 0.14 (`crossterm::style::Attribute`). -/
inductive Attribute
  | reset
  | bold
  | dim
  | italic
  | underlined
  | slowBlink
  | rapidBlink
  | reverse
  | hidden
  | crossedOut
  | fraktur
  | noBold
  | normalIntensity
  | noItalic
  | noUnderline
  | noBlink
  | noInverse
  | noHidden
  | notCrossedOut
  | framed
  | encircled
  | overLined
  | notFramedOrEncircled
  | notOverLined
deriving DecidableEq

/-- crossterm 0.14 `ContentStyle`: optional colors plus a `Vec<Attribute>`. -/
structure ContentStyle where
  foreground_color : Option Color
  background_color : Option Color
  attributes : List Attribute
deriving DecidableEq

/-- `ContentStyle::new()` / `ContentStyle::default()`. -/
def ContentStyle.new : ContentStyle := ⟨none, none, []⟩

/-- crossterm 0.14 `StyledContent<D>`: a displayable value paired with a style. -/
structure StyledContent (D : Type) where
  content : D
  style : ContentStyle
deriving DecidableEq

/-- One queued output item.  Each escape constructor stands for the
non-empty ANSI escape sequence crossterm writes for the corresponding
command; `text s` stands for the bytes of `s` itself. -/
inductive Out
  | setFg (c : Color)
  | setBg (c : Color)
  | setAttr (a : Attribute)
  | text (s : String)
  | resetColor
deriving DecidableEq

/-- The escape tokens the `Display` impl of `StyledContent` writes before
the content: foreground (if set), then background (if set), then one
`SetAttribute` per stored attribute, in storage order. -/
def styleEscapes (s : ContentStyle) : List Out :=
  (match s.foreground_color with
    | some c => [Out.setFg c]
    | none => []) ++
  (match s.background_color with
    | some c => [Out.setBg c]
    | none => []) ++
  s.attributes.map Out.setAttr

/-- Whether the styled-content `Display` impl sets its `reset` flag:
true iff at least one escape is written before the content. -/
def ContentStyle.hasStyle (s : ContentStyle) : Bool :=
  s.foreground_color.isSome || s.background_color.isSome || !s.attributes.isEmpty

/-- Token stream written by crossterm 0.14's `Display for StyledContent`
for a content whose own display form is `payload`: the style escapes,
the payload, and a trailing `ResetColor` iff any escape was written. -/
def displayTokens (s : ContentStyle) (payload : String) : List Out :=
  styleEscapes s ++ [Out.text payload] ++ (if s.hasStyle then [Out.resetColor] else [])

/-- Display of a `StyledContent<String>`. -/
def StyledContent.displayStr (x : StyledContent String) : List Out :=
  displayTokens x.style x.content

/-- Display of a `StyledContent<char>` (a `char` displays as itself). -/
def StyledContent.displayChar (x : StyledContent Char) : List Out :=
  displayTokens x.style (String.singleton x.content)

/-- Rust `str::repeat`: the string concatenated with itself `n` times. -/
def strRepeat (s : String) (n : Nat) : String :=
  String.join (List.replicate n s)

/-- `CompoundStyle` from `src/compound_style.rs`: a wrapper around a
crossterm `ContentStyle`. -/
structure CompoundStyle where
  object_style : ContentStyle
deriving DecidableEq

/-- `CompoundStyle::apply_to`: delegates to `ContentStyle::apply`, which
pairs the value with a clone of the style. -/
def CompoundStyle.apply_to {D : Type} (cs : CompoundStyle) (val : D) : StyledContent D :=
  ⟨val, cs.object_style⟩

/-- `CompoundStyle::new(fg, bg, attrs)`. -/
def CompoundStyle.new (fg bg : Option Color) (attrs : List Attribute) : CompoundStyle :=
  ⟨⟨fg, bg, attrs⟩⟩

/-- `CompoundStyle::default()` (derived `Default`). -/
def CompoundStyle.defaultStyle : CompoundStyle :=
  ⟨ContentStyle.new⟩

/-- `CompoundStyle::with_fg`. -/
def CompoundStyle.with_fg (fg : Color) : CompoundStyle :=
  ⟨⟨some fg, none, []⟩⟩

/-- `CompoundStyle::with_bg`. -/
def CompoundStyle.with_bg (bg : Color) : CompoundStyle :=
  ⟨⟨none, some bg, []⟩⟩

/-- `CompoundStyle::with_fgbg`. -/
def CompoundStyle.with_fgbg (fg bg : Color) : CompoundStyle :=
  ⟨⟨some fg, some bg, []⟩⟩

/-- `CompoundStyle::set_fg`: overwrite the foreground slot. -/
def CompoundStyle.set_fg (cs : CompoundStyle) (c : Color) : CompoundStyle :=
  ⟨⟨some c, cs.object_style.background_color, cs.object_style.attributes⟩⟩

/-- `CompoundStyle::set_bg`: overwrite the background slot. -/
def CompoundStyle.set_bg (cs : CompoundStyle) (c : Color) : CompoundStyle :=
  ⟨⟨cs.object_style.foreground_color, some c, cs.object_style.attributes⟩⟩

/-- `CompoundStyle::set_fgbg`: overwrite both color slots. -/
def CompoundStyle.set_fgbg (cs : CompoundStyle) (fg bg : Color) : CompoundStyle :=
  ⟨⟨some fg, some bg, cs.object_style.attributes⟩⟩

/-- `CompoundStyle::add_attr`: `Vec::push` on the attribute list. -/
def CompoundStyle.add_attr (cs : CompoundStyle) (a : Attribute) : CompoundStyle :=
  ⟨⟨cs.object_style.foreground_color, cs.object_style.background_color,
    cs.object_style.attributes ++ [a]⟩⟩

/-- `CompoundStyle::with_attr`: the default style with one attribute added. -/
def CompoundStyle.with_attr (a : Attribute) : CompoundStyle :=
  CompoundStyle.defaultStyle.add_attr a

/-- `CompoundStyle::overwrite_with(other)`: each color slot becomes
`other`'s value `.or` the receiver's; `other`'s attributes are appended
(`Vec::extend`) to the receiver's. -/
def CompoundStyle.overwrite_with (cs other : CompoundStyle) : CompoundStyle :=
  ⟨⟨other.object_style.foreground_color.or cs.object_style.foreground_color,
    other.object_style.background_color.or cs.object_style.background_color,
    cs.object_style.attributes ++ other.object_style.attributes⟩⟩

/-- `CompoundStyle::get_fg`. -/
def CompoundStyle.get_fg (cs : CompoundStyle) : Option Color :=
  cs.object_style.foreground_color

/-- `CompoundStyle::get_bg`. -/
def CompoundStyle.get_bg (cs : CompoundStyle) : Option Color :=
  cs.object_style.background_color

/-- Tokens written by `CompoundStyle::queue(w, val)` for a string-valued
`val`: `queue!(w, PrintStyledContent(self.apply_to(val)))`, i.e. the
display form of the styled content. -/
def CompoundStyle.queueOut (cs : CompoundStyle) (payload : String) : List Out :=
  (cs.apply_to payload).displayStr

/-- Tokens written by `CompoundStyle::repeat_string(f, s, count)`:
nothing when `count == 0`, otherwise one styled write of
`s.repeat(count)`. -/
def CompoundStyle.repeat_string (cs : CompoundStyle) (s : String) (count : Nat) : List Out :=
  if 0 < count then (cs.apply_to (strRepeat s count)).displayStr else []

/-- Tokens written by `CompoundStyle::repeat_space(f, count)`. -/
def CompoundStyle.repeat_space (cs : CompoundStyle) (count : Nat) : List Out :=
  cs.repeat_string " " count

/-- Tokens written by `CompoundStyle::queue_fg`: the set-foreground
escape when the slot is set, nothing otherwise. -/
def CompoundStyle.queue_fgOut (cs : CompoundStyle) : List Out :=
  match cs.object_style.foreground_color with
  | some fg => [Out.setFg fg]
  | none => []

/-- Tokens written by `CompoundStyle::queue_bg`: the set-background
escape when the slot is set, nothing otherwise. -/
def CompoundStyle.queue_bgOut (cs : CompoundStyle) : List Out :=
  match cs.object_style.background_color with
  | some bg => [Out.setBg bg]
  | none => []

/-- `StyledChar` from `src/styled_char.rs`: a style, a bare character,
and the cached styled form (`redundant, kept for performance`). -/
structure StyledChar where
  compound_style : CompoundStyle
  nude_char : Char
  styled_char : StyledContent Char
deriving DecidableEq

/-- `StyledChar::new`: caches `compound_style.apply_to(nude_char)`. -/
def StyledChar.new (cs : CompoundStyle) (c : Char) : StyledChar :=
  ⟨cs, c, cs.apply_to c⟩

/-- `StyledChar::from_fg_char`. -/
def StyledChar.from_fg_char (fg : Color) (c : Char) : StyledChar :=
  StyledChar.new (CompoundStyle.with_fg fg) c

/-- `CompoundStyle::style_char`. -/
def CompoundStyle.style_char (cs : CompoundStyle) (c : Char) : StyledChar :=
  StyledChar.new cs c

/-- `StyledChar::set_char`: replace the character and recompute the cache. -/
def StyledChar.set_char (sc : StyledChar) (c : Char) : StyledChar :=
  ⟨sc.compound_style, c, sc.compound_style.apply_to c⟩

/-- `StyledChar::set_fg`: set the style's foreground and recompute the cache. -/
def StyledChar.set_fg (sc : StyledChar) (color : Color) : StyledChar :=
  ⟨sc.compound_style.set_fg color, sc.nude_char,
    (sc.compound_style.set_fg color).apply_to sc.nude_char⟩

/-- `StyledChar::set_compound_style`: replace the style and recompute the cache. -/
def StyledChar.set_compound_style (sc : StyledChar) (cs : CompoundStyle) : StyledChar :=
  ⟨cs, sc.nude_char, cs.apply_to sc.nude_char⟩

/-- `StyledChar::repeated(count)`: the bare character pushed `count`
times into a fresh string, then styled once via `apply_to`. -/
def StyledChar.repeated (sc : StyledChar) (count : Nat) : StyledContent String :=
  sc.compound_style.apply_to (String.mk (List.replicate count sc.nude_char))

/-- Tokens written by `StyledChar::queue_repeat(w, count)`: the bare
character pushed `count` times into a fresh string, handed to
`CompoundStyle::queue` (independent of the cached single-char form). -/
def StyledChar.queue_repeatOut (sc : StyledChar) (count : Nat) : List Out :=
  sc.compound_style.queueOut (String.mk (List.replicate count sc.nude_char))

/-- Tokens written by `StyledChar::queue(w)`:
`queue!(w, PrintStyledContent(self.styled_char.clone()))`. -/
def StyledChar.queueOut (sc : StyledChar) : List Out :=
  sc.styled_char.displayChar

/-- Tokens written by `impl Display for StyledChar`, which delegates to
`self.styled_char.fmt(f)`. -/
def StyledChar.displayOut (sc : StyledChar) : List Out :=
  sc.styled_char.displayChar

/-- Cache-consistency predicate for `StyledChar`: the cached styled form
agrees with `compound_style.apply_to(nude_char)`. -/
def cacheConsistent (sc : StyledChar) : Prop :=
  sc.styled_char = sc.compound_style.apply_to sc.nude_char

instance (sc : StyledChar) : Decidable (cacheConsistent sc) := by
  unfold cacheConsistent
  infer_instance

/-!
Terminal interpretation of a token stream.  A terminal keeps a current
foreground, background and set of active attribute flags; printing a
character stamps it with the current state.  Setting the same attribute
twice is the same as setting it once (SGR codes set flags, they do not
toggle), which the `Finset` insert captures.
-/

/-- Terminal styling state: `none` colors mean the terminal default. -/
structure TermState where
  fg : Option Color
  bg : Option Color
  attrs : Finset Attribute
deriving DecidableEq

/-- The terminal state before any escape is received. -/
def TermState.initial : TermState := ⟨none, none, ∅⟩

/-- Effect of one output token on the terminal state.  `ResetColor`
(SGR 0) restores the default state; printed text leaves it unchanged. -/
def stepState (st : TermState) : Out → TermState
  | Out.setFg c => ⟨some c, st.bg, st.attrs⟩
  | Out.setBg c => ⟨st.fg, some c, st.attrs⟩
  | Out.setAttr a => ⟨st.fg, st.bg, insert a st.attrs⟩
  | Out.resetColor => TermState.initial
  | Out.text _ => st

/-- Visible output of a token stream: every printed character paired
with the terminal state in force when it is printed. -/
def visualChars : TermState → List Out → List (TermState × Char)
  | _, [] => []
  | st, Out.setFg c :: rest => visualChars (stepState st (Out.setFg c)) rest
  | st, Out.setBg c :: rest => visualChars (stepState st (Out.setBg c)) rest
  | st, Out.setAttr a :: rest => visualChars (stepState st (Out.setAttr a)) rest
  | st, Out.resetColor :: rest => visualChars (stepState st Out.resetColor) rest
  | st, Out.text s :: rest => s.toList.map (fun ch => (st, ch)) ++ visualChars st rest

/-- Visible output of rendering `payload` through a compound style,
starting from the default terminal state. -/
def visualRender (cs : CompoundStyle) (payload : String) : List (TermState × Char) :=
  visualChars TermState.initial (cs.queueOut payload)

/-- Whether a token is printed text (as opposed to an escape). -/
def Out.isText : Out → Bool
  | Out.text _ => true
  | _ => false

/-- Whether a token is a style-setting escape (fg, bg or attribute). -/
def Out.isStyleEscape : Out → Bool
  | Out.setFg _ => true
  | Out.setBg _ => true
  | Out.setAttr _ => true
  | _ => false

/-- Number of style-setting escapes in a token stream. -/
def escCount (l : List Out) : Nat :=
  (l.filter Out.isStyleEscape).length

/-- Terminal state reached from `st` after consuming the style escapes
of `s`: each set color slot overrides, each attribute is inserted. -/
def escState (st : TermState) (s : ContentStyle) : TermState :=
  ⟨s.foreground_color.or st.fg, s.background_color.or st.bg,
    s.attributes.foldl (fun t a => insert a t) st.attrs⟩

/-!
The scrollable view.  `TextView` itself is not part of the two styling
source files; only its caller (`examples/colored-template-scroll`) is in
the repository snapshot, so the view is modelled from the spec.
-/

/-- Modelled from the spec: the repository snapshot contains only the
caller of `TextView` (`examples/colored-template-scroll/main.rs`), not
its implementation, so the scroll state machine follows the spec's
words: `scroll_offset ∈ [0, max_offset]`,
`max_offset = max(0, content_height − viewport_height)`. -/
structure TextView where
  scroll : Nat
  content_height : Nat
  viewport_height : Nat
deriving DecidableEq

/-- Modelled from the spec: `max_offset = max(0, content_height −
viewport_height)`; Nat subtraction is exactly this saturating form. -/
def TextView.max_offset (v : TextView) : Nat :=
  v.content_height - v.viewport_height

/-- Clamp an integer into `[0, m]` and return it as a `Nat`. -/
def clampTo (x : Int) (m : Nat) : Nat :=
  (min (max x 0) (m : Int)).toNat

/-- Modelled from the spec: `try_scroll_lines(delta)` sets
`offset ← clamp(offset + delta, 0, max_offset)`, silently. -/
def TextView.try_scroll_lines (v : TextView) (d : Int) : TextView :=
  ⟨clampTo ((v.scroll : Int) + d) v.max_offset, v.content_height, v.viewport_height⟩

/-- Modelled from the spec: `try_scroll_pages(delta)` is
`try_scroll_lines(delta * viewport_height)`. -/
def TextView.try_scroll_pages (v : TextView) (d : Int) : TextView :=
  v.try_scroll_lines (d * (v.viewport_height : Int))

/-!
Concrete bytes.  Each token maps to the exact byte string crossterm
0.14 writes for it (`csi!`-built ANSI escapes, 8-bit palette codes for
the named colors), so token streams can be compared as byte streams.
-/

/-- Palette payload written by crossterm 0.14 for a non-`Reset` color
(the part after `38;` / `48;`). -/
def colorCode : Color → String
  | Color.black => "5;0"
  | Color.darkGrey => "5;8"
  | Color.red => "5;9"
  | Color.darkRed => "5;1"
  | Color.green => "5;10"
  | Color.darkGreen => "5;2"
  | Color.yellow => "5;11"
  | Color.darkYellow => "5;3"
  | Color.blue => "5;12"
  | Color.darkBlue => "5;4"
  | Color.magenta => "5;13"
  | Color.darkMagenta => "5;5"
  | Color.cyan => "5;14"
  | Color.darkCyan => "5;6"
  | Color.white => "5;15"
  | Color.grey => "5;7"
  | Color.rgb r g b => "2;" ++ toString r ++ ";" ++ toString g ++ ";" ++ toString b
  | Color.ansiValue n => "5;" ++ toString n
  | Color.reset => ""

/-- Body of the foreground escape (`Colored::ForegroundColor` display). -/
def fgCode : Color → String
  | Color.reset => "39"
  | c => "38;" ++ colorCode c

/-- Body of the background escape (`Colored::BackgroundColor` display). -/
def bgCode : Color → String
  | Color.reset => "49"
  | c => "48;" ++ colorCode c

/-- SGR code of each attribute (crossterm 0.14 discriminants). -/
def sgrCode : Attribute → Nat
  | Attribute.reset => 0
  | Attribute.bold => 1
  | Attribute.dim => 2
  | Attribute.italic => 3
  | Attribute.underlined => 4
  | Attribute.slowBlink => 5
  | Attribute.rapidBlink => 6
  | Attribute.reverse => 7
  | Attribute.hidden => 8
  | Attribute.crossedOut => 9
  | Attribute.fraktur => 20
  | Attribute.noBold => 21
  | Attribute.normalIntensity => 22
  | Attribute.noItalic => 23
  | Attribute.noUnderline => 24
  | Attribute.noBlink => 25
  | Attribute.noInverse => 27
  | Attribute.noHidden => 28
  | Attribute.notCrossedOut => 29
  | Attribute.framed => 51
  | Attribute.encircled => 52
  | Attribute.overLined => 53
  | Attribute.notFramedOrEncircled => 54
  | Attribute.notOverLined => 55

/-- Exact bytes a token stands for. -/
def Out.bytes : Out → String
  | Out.setFg c => "\x1b[" ++ fgCode c ++ "m"
  | Out.setBg c => "\x1b[" ++ bgCode c ++ "m"
  | Out.setAttr a => "\x1b[" ++ toString (sgrCode a) ++ "m"
  | Out.resetColor => "\x1b[0m"
  | Out.text s => s

/-- Bytes of a whole token stream. -/
def outBytes (l : List Out) : String :=
  String.join (l.map Out.bytes)

/-!
Helper lemmas about the terminal interpretation.
-/

theorem visualChars_cons_nontext (st : TermState) (o : Out) (rest : List Out)
    (h : o.isText = false) :
    visualChars st (o :: rest) = visualChars (stepState st o) rest := by
  cases o with
  | setFg c => rfl
  | setBg c => rfl
  | setAttr a => rfl
  | resetColor => rfl
  | text s => simp [Out.isText] at h

theorem visualChars_append_of_nontext (xs : List Out) :
    ∀ (st : TermState) (ys : List Out), (∀ o ∈ xs, o.isText = false) →
      visualChars st (xs ++ ys) = visualChars (xs.foldl stepState st) ys := by
  induction xs with
  | nil => intro st ys _; rfl
  | cons o rest ih =>
    intro st ys h
    have ho : o.isText = false := h o (List.mem_cons_self o rest)
    rw [List.cons_append, visualChars_cons_nontext st o (rest ++ ys) ho,
      ih (stepState st o) ys (fun x hx => h x (List.mem_cons_of_mem o hx))]
    rfl

theorem foldl_stepState_setAttr (l : List Attribute) :
    ∀ st : TermState, (l.map Out.setAttr).foldl stepState st
      = ⟨st.fg, st.bg, l.foldl (fun t a => insert a t) st.attrs⟩ := by
  induction l with
  | nil => intro st; rfl
  | cons a rest ih =>
    intro st
    rw [List.map_cons, List.foldl_cons, ih, List.foldl_cons]
    rfl

theorem foldl_styleEscapes (s : ContentStyle) (st : TermState) :
    (styleEscapes s).foldl stepState st = escState st s := by
  obtain ⟨fg, bg, attrs⟩ := s
  cases fg <;> cases bg <;>
    simp [styleEscapes, escState, List.foldl_append, foldl_stepState_setAttr,
      stepState, Option.or]

theorem styleEscapes_escape (s : ContentStyle) :
    ∀ o ∈ styleEscapes s, o.isStyleEscape = true := by
  obtain ⟨fg, bg, attrs⟩ := s
  intro o ho
  simp only [styleEscapes, List.mem_append] at ho
  rcases ho with (hf | hb) | hm
  · cases fg with
    | none => simp at hf
    | some c =>
      simp only [List.mem_singleton] at hf
      subst hf; rfl
  · cases bg with
    | none => simp at hb
    | some c =>
      simp only [List.mem_singleton] at hb
      subst hb; rfl
  · obtain ⟨a, _, rfl⟩ := List.mem_map.mp hm
    rfl

theorem isText_false_of_isStyleEscape {o : Out} (h : o.isStyleEscape = true) :
    o.isText = false := by
  cases o <;> simp_all [Out.isStyleEscape, Out.isText]

theorem styleEscapes_nontext (s : ContentStyle) :
    ∀ o ∈ styleEscapes s, o.isText = false :=
  fun o ho => isText_false_of_isStyleEscape (styleEscapes_escape s o ho)

theorem escState_initial_of_not_hasStyle (s : ContentStyle) (h : s.hasStyle = false) :
    escState TermState.initial s = TermState.initial := by
  obtain ⟨fg, bg, attrs⟩ := s
  cases fg <;> cases bg <;> cases attrs <;>
    simp_all [ContentStyle.hasStyle, escState, TermState.initial, Option.or]

theorem visual_display_append (s : ContentStyle) (p : String) (rest : List Out) :
    visualChars TermState.initial (displayTokens s p ++ rest)
      = p.toList.map (fun ch => (escState TermState.initial s, ch))
        ++ visualChars TermState.initial rest := by
  unfold displayTokens
  rw [List.append_assoc, List.append_assoc,
    visualChars_append_of_nontext (styleEscapes s) TermState.initial _ (styleEscapes_nontext s),
    foldl_styleEscapes, List.singleton_append]
  show p.toList.map (fun ch => (escState TermState.initial s, ch))
      ++ visualChars (escState TermState.initial s)
        ((if s.hasStyle then [Out.resetColor] else []) ++ rest) = _
  congr 1
  cases hh : s.hasStyle
  · rw [if_neg (by simp [hh]), List.nil_append, escState_initial_of_not_hasStyle s hh]
  · rw [if_pos rfl, List.singleton_append]
    rfl

theorem visual_display (s : ContentStyle) (p : String) :
    visualChars TermState.initial (displayTokens s p)
      = p.toList.map (fun ch => (escState TermState.initial s, ch)) := by
  have h := visual_display_append s p []
  simpa [visualChars] using h

theorem visualRender_eq (cs : CompoundStyle) (p : String) :
    visualRender cs p
      = p.toList.map (fun ch => (escState TermState.initial cs.object_style, ch)) :=
  visual_display cs.object_style p

theorem visual_flatten_replicate (s : ContentStyle) (p : String) (n : Nat) :
    visualChars TermState.initial (List.flatten (List.replicate n (displayTokens s p)))
      = List.flatten (List.replicate n
          (p.toList.map (fun ch => (escState TermState.initial s, ch)))) := by
  induction n with
  | zero => rfl
  | succ k ih =>
    rw [List.replicate_succ, List.flatten_cons, visual_display_append, ih,
      List.replicate_succ, List.flatten_cons]

theorem flatten_replicate_singleton {α : Type} (n : Nat) (x : α) :
    List.flatten (List.replicate n [x]) = List.replicate n x := by
  induction n with
  | zero => rfl
  | succ k ih =>
    rw [List.replicate_succ, List.flatten_cons, ih, List.replicate_succ]
    rfl

theorem filter_styleEscapes (s : ContentStyle) :
    (styleEscapes s).filter Out.isStyleEscape = styleEscapes s :=
  List.filter_eq_self.mpr (styleEscapes_escape s)

theorem escCount_displayTokens (s : ContentStyle) (p : String) :
    escCount (displayTokens s p) = (styleEscapes s).length := by
  unfold escCount displayTokens
  rw [List.filter_append, List.filter_append, filter_styleEscapes]
  cases hh : s.hasStyle <;> simp [Out.isStyleEscape]

/-!
The claims.
-/

/-- C1: every way of building a `StyledChar` (`new`, `from_fg_char`,
`style_char`) and every mutator (`set_char`, `set_fg`,
`set_compound_style`) leaves the cached styled form equal to
`compound_style.apply_to(nude_char)`, and a render immediately after a
mutation — whether through `queue` or through the `Display` impl —
emits exactly the styled form of the mutated character and style, never
a stale one. -/
theorem C1_styled_char_cache_consistency
    (cs cs2 : CompoundStyle) (c : Char) (fg : Color) (sc : StyledChar) :
    cacheConsistent (StyledChar.new cs c) ∧
    cacheConsistent (StyledChar.from_fg_char fg c) ∧
    cacheConsistent (cs.style_char c) ∧
    cacheConsistent (sc.set_char c) ∧
    cacheConsistent (sc.set_fg fg) ∧
    cacheConsistent (sc.set_compound_style cs2) ∧
    (sc.set_char c).queueOut
      = displayTokens sc.compound_style.object_style (String.singleton c) ∧
    (sc.set_fg fg).queueOut
      = displayTokens (sc.compound_style.set_fg fg).object_style
          (String.singleton sc.nude_char) ∧
    (sc.set_compound_style cs2).queueOut
      = displayTokens cs2.object_style (String.singleton sc.nude_char) ∧
    (sc.set_char c).displayOut = (sc.set_char c).queueOut ∧
    (sc.set_fg fg).displayOut = (sc.set_fg fg).queueOut ∧
    (sc.set_compound_style cs2).displayOut = (sc.set_compound_style cs2).queueOut :=
  ⟨rfl, rfl, rfl, rfl, rfl, rfl, rfl, rfl, rfl, rfl, rfl, rfl⟩

/-- C2: `overwrite_with` is right-biased per color slot — the merged
foreground is `other.foreground.or(self.foreground)` and likewise for
the background — and the merged attribute list contains every attribute
of both inputs. -/
theorem C2_overwrite_with_right_biased (A B : CompoundStyle) :
    (A.overwrite_with B).get_fg = B.get_fg.or A.get_fg ∧
    (A.overwrite_with B).get_bg = B.get_bg.or A.get_bg ∧
    (∀ a : Attribute, a ∈ A.object_style.attributes →
      a ∈ (A.overwrite_with B).object_style.attributes) ∧
    (∀ a : Attribute, a ∈ B.object_style.attributes →
      a ∈ (A.overwrite_with B).object_style.attributes) := by
  refine ⟨rfl, rfl, ?_, ?_⟩
  · intro a ha
    exact List.mem_append.mpr (Or.inl ha)
  · intro a ha
    exact List.mem_append.mpr (Or.inr ha)

/-- Witness for C2 at a concrete pair of styles. -/
theorem C2_overwrite_with_right_biased_witness :
    Attribute.bold ∈ ((CompoundStyle.with_attr Attribute.bold).overwrite_with
      (CompoundStyle.with_attr Attribute.italic)).object_style.attributes ∧
    Attribute.italic ∈ ((CompoundStyle.with_attr Attribute.bold).overwrite_with
      (CompoundStyle.with_attr Attribute.italic)).object_style.attributes :=
  ⟨(C2_overwrite_with_right_biased (CompoundStyle.with_attr Attribute.bold)
      (CompoundStyle.with_attr Attribute.italic)).2.2.1 Attribute.bold (by decide),
   (C2_overwrite_with_right_biased (CompoundStyle.with_attr Attribute.bold)
      (CompoundStyle.with_attr Attribute.italic)).2.2.2 Attribute.italic (by decide)⟩

/-- C5: `overwrite_with` is associative — overwriting `A` with `B` and
then with `C` yields exactly the same style (foreground, background and
attribute list) as overwriting `A` with the merge of `B` and `C`, i.e.
the layered precedence base-`A` < `B` < `C`. -/
theorem C5_overwrite_with_assoc (A B C : CompoundStyle) :
    (A.overwrite_with B).overwrite_with C
      = A.overwrite_with (B.overwrite_with C) := by
  obtain ⟨⟨fa, ba, aa⟩⟩ := A
  obtain ⟨⟨fb, bb, ab⟩⟩ := B
  obtain ⟨⟨fc, bc, ac⟩⟩ := C
  simp only [CompoundStyle.overwrite_with, CompoundStyle.mk.injEq, ContentStyle.mk.injEq]
  refine ⟨?_, ?_, List.append_assoc aa ab ac⟩
  · cases fc <;> cases fb <;> simp [Option.or]
  · cases bc <;> cases bb <;> simp [Option.or]

/-- C7: rendering a `StyledChar` through its `Display` impl writes
exactly the same tokens — hence byte-identical output — as `queue` on
the same writer: both emit the cached styled single character. -/
theorem C7_display_queue_byte_identical (sc : StyledChar) :
    sc.displayOut = sc.queueOut ∧ outBytes sc.displayOut = outBytes sc.queueOut :=
  ⟨rfl, rfl⟩

/-- C8: `queue_fg` (resp. `queue_bg`) writes nothing at all — zero
tokens, zero bytes, in particular no reset-to-default escape — when the
foreground (resp. background) slot is absent, and queues exactly the one
corresponding set-color escape when the slot is present. -/
theorem C8_queue_fg_bg_absent_silent (cs : CompoundStyle) :
    (cs.get_fg = none → cs.queue_fgOut = [] ∧ outBytes cs.queue_fgOut = "") ∧
    (∀ c : Color, cs.get_fg = some c → cs.queue_fgOut = [Out.setFg c]) ∧
    (cs.get_bg = none → cs.queue_bgOut = [] ∧ outBytes cs.queue_bgOut = "") ∧
    (∀ c : Color, cs.get_bg = some c → cs.queue_bgOut = [Out.setBg c]) := by
  obtain ⟨⟨fg, bg, attrs⟩⟩ := cs
  refine ⟨?_, ?_, ?_, ?_⟩
  · intro h
    cases fg with
    | none => exact ⟨rfl, rfl⟩
    | some c => exact Option.noConfusion h
  · intro c h
    cases fg with
    | none => exact Option.noConfusion h
    | some d =>
      have hd : d = c := Option.some.inj h
      subst hd
      rfl
  · intro h
    cases bg with
    | none => exact ⟨rfl, rfl⟩
    | some c => exact Option.noConfusion h
  · intro c h
    cases bg with
    | none => exact Option.noConfusion h
    | some d =>
      have hd : d = c := Option.some.inj h
      subst hd
      rfl

/-- Witness for C8: a background-only style writes nothing for the
foreground and exactly one set-background escape. -/
theorem C8_queue_fg_bg_absent_silent_witness :
    (CompoundStyle.with_bg Color.blue).queue_fgOut = [] ∧
    (CompoundStyle.with_bg Color.blue).queue_bgOut = [Out.setBg Color.blue] :=
  ⟨((C8_queue_fg_bg_absent_silent (CompoundStyle.with_bg Color.blue)).1 rfl).1,
   (C8_queue_fg_bg_absent_silent (CompoundStyle.with_bg Color.blue)).2.2.2 Color.blue rfl⟩

theorem toList_mk (l : List Char) : (String.mk l).toList = l := rfl

theorem foldl_insert_append_pair (l : List Attribute) (a : Attribute) (t : Finset Attribute) :
    ((l ++ [a]) ++ [a]).foldl (fun s x => insert x s) t
      = (l ++ [a]).foldl (fun s x => insert x s) t := by
  simp [List.foldl_append, Finset.insert_idem]

/-- C6: adding an attribute twice — whether by calling `add_attr` again
or by merging in a style carrying the same attribute through
`overwrite_with` — has no additional visual effect: the rendered output
for any value is exactly the output of adding it once.  Storage is an
appendable list (the duplicate is stored), but duplicates are
semantically inert at render time. -/
theorem C6_add_attr_render_idempotent (cs : CompoundStyle) (a : Attribute) (p : String) :
    visualRender ((cs.add_attr a).add_attr a) p = visualRender (cs.add_attr a) p ∧
    visualRender ((cs.add_attr a).overwrite_with (CompoundStyle.with_attr a)) p
      = visualRender (cs.add_attr a) p := by
  have hesc : escState TermState.initial ((cs.add_attr a).add_attr a).object_style
      = escState TermState.initial (cs.add_attr a).object_style := by
    obtain ⟨⟨fg, bg, attrs⟩⟩ := cs
    simp only [CompoundStyle.add_attr, escState]
    rw [foldl_insert_append_pair]
  have hmain : visualRender ((cs.add_attr a).add_attr a) p
      = visualRender (cs.add_attr a) p := by
    rw [visualRender_eq, visualRender_eq, hesc]
  have how : (cs.add_attr a).overwrite_with (CompoundStyle.with_attr a)
      = (cs.add_attr a).add_attr a := by
    obtain ⟨⟨fg, bg, attrs⟩⟩ := cs
    cases fg <;> cases bg <;>
      simp [CompoundStyle.overwrite_with, CompoundStyle.add_attr, CompoundStyle.with_attr,
        CompoundStyle.defaultStyle, ContentStyle.new, Option.or]
  exact ⟨hmain, by rw [how]; exact hmain⟩

/-- C3 counterexample: `queue_repeat(w, 0)` on a `StyledChar` with a red
foreground does write to the writer — it performs one styled write of an
empty payload, emitting the set-foreground escape and a reset. -/
theorem C3_queue_repeat_zero_counterexample :
    outBytes (StyledChar.queue_repeatOut (StyledChar.from_fg_char Color.red 'x') 0) ≠ ""
      ∧ StyledChar.queue_repeatOut (StyledChar.from_fg_char Color.red 'x') 0 ≠ [] := by
  decide

/-- C3 amended: `repeat_string` and `repeat_space` with `count == 0`
write nothing (zero tokens) and cannot fail; `queue_repeat(w, 0)` prints
no visible character — its payload is the empty string, so its visual
output is empty — but it still performs one styled write of that empty
payload (the style's escapes plus a trailing reset when the style is
non-default); its output is byte-empty only for an unstyled char, e.g.
one built over the default compound style. -/
theorem C3_count_zero_amended (cs : CompoundStyle) (s : String) (sc : StyledChar) (c : Char) :
    cs.repeat_string s 0 = [] ∧
    cs.repeat_space 0 = [] ∧
    sc.queue_repeatOut 0 = displayTokens sc.compound_style.object_style "" ∧
    visualChars TermState.initial (sc.queue_repeatOut 0) = [] ∧
    StyledChar.queue_repeatOut (StyledChar.new CompoundStyle.defaultStyle c) 0
      = [Out.text ""] ∧
    outBytes (StyledChar.queue_repeatOut (StyledChar.new CompoundStyle.defaultStyle c) 0)
      = "" := by
  refine ⟨rfl, rfl, rfl, ?_, rfl, rfl⟩
  show visualChars TermState.initial
    (displayTokens sc.compound_style.object_style
      (String.mk (List.replicate 0 sc.nude_char))) = []
  rw [visual_display]
  rfl

/-- C4: for `count > 0`, `repeat_string` performs one single styled
write of `s` repeated `count` times; `repeated(count)` and
`queue_repeat(w, count)` perform one single styled write of `count`
copies of the character (the style escapes appear once, not once per
copy — the escape count equals that of a single render), and the visual
output equals that of `count` sequential single-character renders of the
same (cache-consistent) styled char. -/
theorem C4_repeat_one_style_application
    (cs : CompoundStyle) (s : String) (n : Nat) (sc : StyledChar)
    (hn : 0 < n) (hc : cacheConsistent sc) :
    cs.repeat_string s n = displayTokens cs.object_style (strRepeat s n) ∧
    (sc.repeated n).displayStr
      = displayTokens sc.compound_style.object_style
          (String.mk (List.replicate n sc.nude_char)) ∧
    sc.queue_repeatOut n
      = displayTokens sc.compound_style.object_style
          (String.mk (List.replicate n sc.nude_char)) ∧
    escCount (sc.queue_repeatOut n) = escCount sc.queueOut ∧
    visualChars TermState.initial (sc.queue_repeatOut n)
      = visualChars TermState.initial (List.flatten (List.replicate n sc.queueOut)) := by
  have hc' : sc.styled_char = sc.compound_style.apply_to sc.nude_char := hc
  have hq : sc.queueOut
      = displayTokens sc.compound_style.object_style (String.singleton sc.nude_char) := by
    unfold StyledChar.queueOut
    rw [hc']
    rfl
  refine ⟨?_, rfl, rfl, ?_, ?_⟩
  · unfold CompoundStyle.repeat_string
    rw [if_pos hn]
    rfl
  · rw [hq]
    show escCount (displayTokens sc.compound_style.object_style
      (String.mk (List.replicate n sc.nude_char))) = _
    rw [escCount_displayTokens, escCount_displayTokens]
  · rw [hq]
    show visualChars TermState.initial (displayTokens sc.compound_style.object_style
      (String.mk (List.replicate n sc.nude_char))) = _
    rw [visual_display, visual_flatten_replicate]
    simp [String.singleton, toList_mk, List.map_replicate, flatten_replicate_singleton]

/-- Witness for C4 at concrete inputs: a red foreground style, the
string "ab" and a red 'x' char, with `count = 2`. -/
theorem C4_repeat_one_style_application_witness :
    0 < 2 ∧ cacheConsistent (StyledChar.from_fg_char Color.red 'x') ∧
    ((CompoundStyle.with_fg Color.red).repeat_string "ab" 2
        = displayTokens (CompoundStyle.with_fg Color.red).object_style (strRepeat "ab" 2) ∧
      escCount ((StyledChar.from_fg_char Color.red 'x').queue_repeatOut 2)
        = escCount (StyledChar.from_fg_char Color.red 'x').queueOut) :=
  ⟨by decide, rfl,
    (C4_repeat_one_style_application (CompoundStyle.with_fg Color.red) "ab" 2
        (StyledChar.from_fg_char Color.red 'x') (by decide) rfl).1,
    (C4_repeat_one_style_application (CompoundStyle.with_fg Color.red) "ab" 2
        (StyledChar.from_fg_char Color.red 'x') (by decide) rfl).2.2.2.1⟩

/-- C9 (`TextView` is modelled from the spec, since only its caller is
in the repository snapshot): `try_scroll_lines(d)` sets the offset to
`clamp(offset + d, 0, max_offset)` with no underflow (the result is a
`Nat` within bounds); re-applying the same delta from the clamped result
stays within bounds; and `try_scroll_pages(d)` equals
`try_scroll_lines(d * viewport_height)`. -/
theorem C9_scroll_clamping (v : TextView) (d : Int) :
    ((v.try_scroll_lines d).scroll : Int)
      = min (max ((v.scroll : Int) + d) 0) (v.max_offset : Int) ∧
    (v.try_scroll_lines d).scroll ≤ v.max_offset ∧
    ((v.try_scroll_lines d).try_scroll_lines d).scroll ≤ v.max_offset ∧
    v.try_scroll_pages d = v.try_scroll_lines (d * (v.viewport_height : Int)) := by
  have hb : ∀ x : Int, clampTo x v.max_offset ≤ v.max_offset := fun x =>
    Int.toNat_le.mpr (min_le_right _ _)
  refine ⟨?_, hb _, hb _, rfl⟩
  show ((clampTo ((v.scroll : Int) + d) v.max_offset : Nat) : Int) = _
  unfold clampTo
  rw [Int.toNat_of_nonneg (le_min (le_max_right _ _) (Int.natCast_nonneg _))]

/-- C10: `StyledChar::set_fg` changes only the foreground slot of the
underlying compound style (recomputing the cache); the character, the
background slot and the attribute list are unchanged. -/
theorem C10_set_fg_frame (sc : StyledChar) (color : Color) :
    (sc.set_fg color).nude_char = sc.nude_char ∧
    (sc.set_fg color).compound_style.get_fg = some color ∧
    (sc.set_fg color).compound_style.get_bg = sc.compound_style.get_bg ∧
    (sc.set_fg color).compound_style.object_style.attributes
      = sc.compound_style.object_style.attributes ∧
    cacheConsistent (sc.set_fg color) :=
  ⟨rfl, rfl, rfl, rfl, rfl⟩

end Termimad
